import Mathlib

/-!
Shallow embedding of the exchange gRPC server
(`doc/lesson-3.2.7-exchange-grpc/src/server.rs`).

The server keeps an in-memory `ExchangeState` with an order table
(`HashMap<i64, Order>`, modelled as an association list keyed by `Int`)
and a `next_order_id : i64` counter (modelled as `Int`; allocator overflow
is explicitly out of scope for this service, so no wraparound is modelled).
Each handler here becomes a pure function from the shared state and the
request to the updated state and an `Except`-valued result; the error side
carries the gRPC status code and message the handler produces.  On every
error path the Rust code returns before touching the shared state, which
the embedding captures by returning the input state unchanged.

`f64` request/quote fields (`price`, `bid`, `ask`, `last`) are modelled as
exact rationals `ℚ`: the arithmetic the handlers perform on them is
modelled exactly.  Integer fields (`i64`, `i32`) are modelled as `Int`.
-/

namespace ExchangeSrv

/-- Wire value of `OrderStatus::Pending`.  The generated protobuf enum is not
part of the source tree; its wire numbering is taken from the spec
(`status ∈ {Pending=0, Cancelled=1}`). -/
def pendingStatus : Int := 0

/-- Wire value of `OrderStatus::Cancelled` (see `pendingStatus`). -/
def cancelledStatus : Int := 1

/-- The `Order` message stored in the order table (`server.rs`, `create_order`).
`ty` stands for the Rust field `r#type` (the buy/sell side, a raw `i32` on
the wire). -/
structure Order where
  id : Int
  user_id : String
  symbol : String
  ty : Int
  price : ℚ
  quantity : Int
  filled_quantity : Int
  status : Int
  created_at : Int
  deriving Repr, DecidableEq

/-- The `CreateOrderRequest` message. -/
structure CreateOrderRequest where
  user_id : String
  symbol : String
  ty : Int
  price : ℚ
  quantity : Int
  deriving Repr, DecidableEq

/-- The `CancelOrderRequest` message. -/
structure CancelOrderRequest where
  user_id : String
  order_id : Int
  deriving Repr, DecidableEq

/-- The `CancelOrderResponse` message: a success flag and a human-readable
message.  Note it has no field holding an `Order`. -/
structure CancelOrderResponse where
  success : Bool
  message : String
  deriving Repr, DecidableEq

/-- The `GetActiveOrdersRequest` message (`symbol` empty means no filter). -/
structure GetActiveOrdersRequest where
  user_id : String
  symbol : String
  deriving Repr, DecidableEq

/-- The gRPC error statuses produced by the handlers, with their messages. -/
inductive GStatus where
  | invalidArgument (msg : String)
  | notFound (msg : String)
  | permissionDenied (msg : String)
  | failedPrecondition (msg : String)
  deriving Repr, DecidableEq

/-- Lookup in the order table (`HashMap::get` / `get_mut` on `orders`). -/
def lookupOrder : List (Int × Order) → Int → Option Order
  | [], _ => none
  | (k', v) :: rest, k => if k' = k then some v else lookupOrder rest k

/-- Insertion in the order table (`HashMap::insert`: replaces the value when
the key is present, appends a fresh binding otherwise).  The in-place update
done by `cancel_order` through `get_mut` has the same effect on the map. -/
def insertOrder : List (Int × Order) → Int → Order → List (Int × Order)
  | [], k, v => [(k, v)]
  | (k', v') :: rest, k, v =>
      if k' = k then (k, v) :: rest else (k', v') :: insertOrder rest k v

/-- The shared `ExchangeState` (balances are never touched by the operations
the development covers, so the balance table is omitted). -/
structure ExchangeState where
  orders : List (Int × Order)
  next_order_id : Int
  deriving Repr, DecidableEq

/-- `ExchangeState::new()`: empty order table, `next_order_id = 1`. -/
def ExchangeState.new : ExchangeState :=
  { orders := [], next_order_id := 1 }

/-- `create_order` (`server.rs`): validates `price > 0`, `quantity > 0`,
`symbol` non-empty; on failure returns `InvalidArgument` without touching
the state; on success allocates `next_order_id`, increments the counter,
builds the order with `status = Pending`, `filled_quantity = 0`,
`created_at = now`, inserts it into the table and returns it. -/
def create_order (st : ExchangeState) (req : CreateOrderRequest) (now : Int) :
    ExchangeState × Except GStatus Order :=
  if req.price ≤ 0 then
    (st, .error (.invalidArgument "Price must be positive"))
  else if req.quantity ≤ 0 then
    (st, .error (.invalidArgument "Quantity must be positive"))
  else if req.symbol.isEmpty then
    (st, .error (.invalidArgument "Symbol cannot be empty"))
  else
    let order_id := st.next_order_id
    let order : Order :=
      { id := order_id, user_id := req.user_id, symbol := req.symbol,
        ty := req.ty, price := req.price, quantity := req.quantity,
        filled_quantity := 0, status := pendingStatus, created_at := now }
    ({ orders := insertOrder st.orders order_id order,
       next_order_id := order_id + 1 },
     .ok order)

/-- The validation `create_order` performs, as a Boolean predicate. -/
def validRequest (req : CreateOrderRequest) : Bool :=
  decide (0 < req.price) && decide (0 < req.quantity) && !req.symbol.isEmpty

/-- `cancel_order` (`server.rs`): `NotFound` when the id is absent;
`PermissionDenied` when the caller is not the owner; `FailedPrecondition`
when the status is not `Pending`; otherwise sets the status to `Cancelled`
in place and answers with `success = true` and a fixed message. -/
def cancel_order (st : ExchangeState) (req : CancelOrderRequest) :
    ExchangeState × Except GStatus CancelOrderResponse :=
  match lookupOrder st.orders req.order_id with
  | none => (st, .error (.notFound "Order not found"))
  | some order =>
    if order.user_id ≠ req.user_id then
      (st, .error (.permissionDenied "Order belongs to another user"))
    else if order.status ≠ pendingStatus then
      (st, .error (.failedPrecondition "Only pending orders can be cancelled"))
    else
      ({ st with
          orders := insertOrder st.orders req.order_id
            { order with status := cancelledStatus } },
       .ok { success := true, message := "Order cancelled successfully" })

/-- `get_active_orders` (`server.rs`): filter the table's values by owner,
`Pending` status, and the optional symbol filter (empty string = no filter). -/
def get_active_orders (st : ExchangeState) (req : GetActiveOrdersRequest) :
    List Order :=
  (st.orders.map Prod.snd).filter fun o =>
    o.user_id == req.user_id && o.status == pendingStatus
      && (req.symbol.isEmpty || o.symbol == req.symbol)

/-- A synthetic `Quote` message (`bid`/`ask`/`last` are `f64` on the wire,
modelled as exact rationals). -/
structure Quote where
  symbol : String
  bid : ℚ
  ask : ℚ
  last : ℚ
  volume : Int
  timestamp : Int
  deriving Repr, DecidableEq

/-- The static base-price table inside `stream_quotes`: `"BTC" → 50000`,
`"ETH" → 3000`, `"USD" → 1`, anything else `→ 100`. -/
def basePriceOf (symbol : String) : ℚ :=
  if symbol = "BTC" then 50000
  else if symbol = "ETH" then 3000
  else if symbol = "USD" then 1
  else 100

/-- The RNG seed computed per quote in `stream_quotes`:
`(timestamp as u64) ^ (symbol.len() as u64)`.  The `i64 → u64` cast is the
value modulo `2^64`; Rust's `str::len` is the UTF-8 byte length, i.e.
`String.utf8ByteSize`. -/
def seedOf (timestamp : Int) (symbol : String) : Nat :=
  Nat.xor (timestamp % (2 ^ 64 : Int)).toNat (symbol.utf8ByteSize % 2 ^ 64)

/-- One quote generation step of `stream_quotes`.  The external `StdRng` is
abstracted by `rng : Nat → ℚ × Int`, mapping a seed to the two values the
code draws from the freshly seeded generator: first `rng.gen::<f64>()`
(a value in `[0, 1)`, first component) and then
`rng.gen_range(0..1000000)` (second component).  Determinism of the seeded
generator is exactly what this functional abstraction expresses; the range
contracts of the two draws are hypotheses of the theorems below. -/
def generateQuote (rng : Nat → ℚ × Int) (symbol : String) (timestamp : Int) :
    Quote :=
  let base_price := basePriceOf symbol
  let seed := seedOf timestamp symbol
  let variation := ((rng seed).1 - 1/2) * (2/100)
  let bid := base_price * (1 + variation)
  let ask := bid * (1001/1000)
  let last := (bid + ask) / 2
  { symbol := symbol, bid := bid, ask := ask, last := last,
    volume := (rng seed).2, timestamp := timestamp }

/-- The perturbation factor `variation = (rng.gen::<f64>() - 0.5) * 0.02`
applied to the base price for a given symbol and timestamp. -/
def variationOf (rng : Nat → ℚ × Int) (symbol : String) (timestamp : Int) : ℚ :=
  ((rng (seedOf timestamp symbol)).1 - 1/2) * (2/100)

/-!
The producer task spawned by `stream_quotes` loops over ticks; on each tick
it attempts one channel send per requested symbol, in order, and executes
`return` the moment a send fails (`tx.send(..).await.is_err()`).  The
channel consumer is abstracted by `alive : Nat → Bool`: send attempts are
numbered globally in program order and `alive k` tells whether the `k`-th
attempted send is accepted (`true`) or fails because the receiving half is
gone (`false`).  The quote payload is irrelevant to the control flow, so
the model counts attempts.
-/

/-- Sends of one tick of the producer: one attempt per symbol starting at
global attempt index `k`.  Returns the number of attempts made this tick
and whether a send failed (upon which the task body executes `return`). -/
def tickSends (alive : Nat → Bool) : List String → Nat → Nat × Bool
  | [], _ => (0, false)
  | _ :: rest, k =>
      if alive k then
        let r := tickSends alive rest (k + 1)
        (r.1 + 1, r.2)
      else (1, true)

/-- The producer loop, run for `fuel` ticks with the next free attempt
index `k`.  Returns the total number of send attempts and whether the task
returned early because a send failed. -/
def producerRun (alive : Nat → Bool) (symbols : List String) :
    Nat → Nat → Nat × Bool
  | 0, _ => (0, false)
  | fuel + 1, k =>
      let t := tickSends alive symbols k
      if t.2 then (t.1, true)
      else
        let r := producerRun alive symbols fuel (k + t.1)
        (t.1 + r.1, r.2)

/-- A sequence of `create_order` calls, each with its own `now` timestamp,
threading the shared state through; collects each call's result. -/
def runCreates :
    ExchangeState → List (CreateOrderRequest × Int) →
      ExchangeState × List (Except GStatus Order)
  | st, [] => (st, [])
  | st, (req, now) :: rest =>
      let p := create_order st req now
      let q := runCreates p.1 rest
      (q.1, p.2 :: q.2)

/-- The ids of the successfully created orders, in call order. -/
def assignedIds (results : List (Except GStatus Order)) : List Int :=
  results.filterMap fun r =>
    match r with
    | .ok o => some o.id
    | .error _ => none

/-! ### Helper lemmas about the order table and the handlers -/

theorem lookupOrder_insertOrder_self (m : List (Int × Order)) (k : Int)
    (v : Order) : lookupOrder (insertOrder m k v) k = some v := by
  induction m with
  | nil => simp [insertOrder, lookupOrder]
  | cons hd tl ih =>
    obtain ⟨k', v'⟩ := hd
    by_cases h : k' = k
    · subst h
      simp [insertOrder, lookupOrder]
    · simp [insertOrder, lookupOrder, h, ih]

theorem lookupOrder_insertOrder_ne (m : List (Int × Order)) (k k' : Int)
    (v : Order) (h : k' ≠ k) :
    lookupOrder (insertOrder m k v) k' = lookupOrder m k' := by
  induction m with
  | nil => simp [insertOrder, lookupOrder, Ne.symm h]
  | cons hd tl ih =>
    obtain ⟨k₀, v₀⟩ := hd
    by_cases h₀ : k₀ = k
    · subst h₀
      simp [insertOrder, lookupOrder, Ne.symm h]
    · by_cases h₁ : k₀ = k'
      · subst h₁
        simp [insertOrder, lookupOrder, h₀]
      · simp [insertOrder, lookupOrder, h₀, h₁, ih]

/-- Unfolding of `create_order` on a request that passes validation. -/
theorem create_order_valid (st : ExchangeState) (req : CreateOrderRequest)
    (now : Int) (hv : validRequest req = true) :
    create_order st req now =
      ({ orders := insertOrder st.orders st.next_order_id
            { id := st.next_order_id, user_id := req.user_id,
              symbol := req.symbol, ty := req.ty, price := req.price,
              quantity := req.quantity, filled_quantity := 0,
              status := pendingStatus, created_at := now },
          next_order_id := st.next_order_id + 1 },
        .ok { id := st.next_order_id, user_id := req.user_id,
              symbol := req.symbol, ty := req.ty, price := req.price,
              quantity := req.quantity, filled_quantity := 0,
              status := pendingStatus, created_at := now }) := by
  simp only [validRequest, Bool.and_eq_true, decide_eq_true_eq,
    Bool.not_eq_true'] at hv
  obtain ⟨⟨hp, hq⟩, hs⟩ := hv
  simp [create_order, not_le.mpr hp, not_le.mpr hq, hs]

/-- Unfolding of `create_order` on a request that fails validation. -/
theorem create_order_invalid (st : ExchangeState) (req : CreateOrderRequest)
    (now : Int) (hv : validRequest req = false) :
    (create_order st req now).1 = st ∧
      ∃ msg, (create_order st req now).2 = .error (.invalidArgument msg) := by
  simp only [validRequest, Bool.and_eq_false_iff, decide_eq_false_iff_not,
    not_lt, Bool.not_eq_false'] at hv
  rcases hv with hpq | hs
  · rcases hpq with hp | hq
    · simp [create_order, hp]
    · by_cases hp : req.price ≤ 0 <;> simp [create_order, hp, hq]
  · by_cases hp : req.price ≤ 0
    · simp [create_order, hp]
    · by_cases hq : req.quantity ≤ 0 <;> simp [create_order, hp, hq, hs]

/-! ### Concrete example states used by witnesses and counterexamples -/

/-- A pending order (id 1, owner `"u1"`, symbol `"BTC"`). -/
def c1OrderA : Order :=
  { id := 1, user_id := "u1", symbol := "BTC", ty := 0, price := 50000,
    quantity := 100, filled_quantity := 0, status := pendingStatus,
    created_at := 0 }

/-- A pending order that differs from `c1OrderA` in symbol and price. -/
def c1OrderB : Order :=
  { c1OrderA with symbol := "ETH", price := 3000 }

/-- A store holding only `c1OrderA`. -/
def c1StA : ExchangeState := { orders := [(1, c1OrderA)], next_order_id := 2 }

/-- A store holding only `c1OrderB`. -/
def c1StB : ExchangeState := { orders := [(1, c1OrderB)], next_order_id := 2 }

/-- Cancellation of order 1 by its owner `"u1"`. -/
def c1Req : CancelOrderRequest := { user_id := "u1", order_id := 1 }

/-! ### Claims C1, C3, C4, C5, C6 -/

/-- C1 (counterexample to "returns the updated order to the caller"):
two stores whose order 1 differs (symbol/price) produce byte-for-byte
identical `cancel_order` responses, so the response cannot contain (let
alone return) the updated order; the handler answers only with
`success = true` and a fixed message. -/
theorem cancel_order_response_carries_no_order :
    (cancel_order c1StA c1Req).2 = (cancel_order c1StB c1Req).2 ∧
      lookupOrder (cancel_order c1StA c1Req).1.orders 1
        ≠ lookupOrder (cancel_order c1StB c1Req).1.orders 1 ∧
      (cancel_order c1StA c1Req).2
        = .ok { success := true, message := "Order cancelled successfully" } := by
  refine ⟨rfl, ?_, rfl⟩
  decide

/-- C1 (amended): for every `cancel_order` call that succeeds (the order
exists, is owned by the caller, and has status Pending), the operation sets
the order's status to `Cancelled` in the store and returns a
`CancelOrderResponse` with `success = true` and the fixed message
`"Order cancelled successfully"` (it does not return the updated order). -/
theorem cancel_order_success_sets_cancelled (st : ExchangeState)
    (req : CancelOrderRequest) (o : Order)
    (hlook : lookupOrder st.orders req.order_id = some o)
    (howner : o.user_id = req.user_id)
    (hpend : o.status = pendingStatus) :
    (cancel_order st req).2
        = .ok { success := true, message := "Order cancelled successfully" } ∧
      lookupOrder (cancel_order st req).1.orders req.order_id
        = some { o with status := cancelledStatus } := by
  constructor
  · simp [cancel_order, hlook, howner, hpend]
  · simp [cancel_order, hlook, howner, hpend, lookupOrder_insertOrder_self]

/-- Witness for `cancel_order_success_sets_cancelled` at the concrete store
`c1StA`, order 1 owned by `"u1"`. -/
theorem cancel_order_success_sets_cancelled_witness :
    lookupOrder c1StA.orders c1Req.order_id = some c1OrderA ∧
      c1OrderA.user_id = c1Req.user_id ∧
      c1OrderA.status = pendingStatus ∧
      ((cancel_order c1StA c1Req).2
          = .ok { success := true, message := "Order cancelled successfully" } ∧
        lookupOrder (cancel_order c1StA c1Req).1.orders c1Req.order_id
          = some { c1OrderA with status := cancelledStatus }) :=
  ⟨by decide, by decide, by decide,
    cancel_order_success_sets_cancelled c1StA c1Req c1OrderA (by decide)
      (by decide) (by decide)⟩

/-- C3: `cancel_order` fails with `NotFound` exactly when the id is absent;
when the order exists, it fails with `PermissionDenied` exactly when the
caller is not the owner, and with `FailedPrecondition` exactly when the
caller is the owner but the status is not Pending; moreover after any
successful cancellation, repeating the same call fails with
`FailedPrecondition` (it never succeeds a second time). -/
theorem cancel_order_error_taxonomy (st : ExchangeState)
    (req : CancelOrderRequest) :
    ((cancel_order st req).2 = .error (.notFound "Order not found")
        ↔ lookupOrder st.orders req.order_id = none) ∧
      (∀ o, lookupOrder st.orders req.order_id = some o →
        (((cancel_order st req).2
            = .error (.permissionDenied "Order belongs to another user"))
          ↔ o.user_id ≠ req.user_id) ∧
        (((cancel_order st req).2
            = .error (.failedPrecondition "Only pending orders can be cancelled"))
          ↔ o.user_id = req.user_id ∧ o.status ≠ pendingStatus)) ∧
      (∀ resp, (cancel_order st req).2 = .ok resp →
        (cancel_order (cancel_order st req).1 req).2
          = .error (.failedPrecondition "Only pending orders can be cancelled")) := by
  cases hl : lookupOrder st.orders req.order_id with
  | none =>
    refine ⟨by simp [cancel_order, hl], fun o ho => by simp [hl] at ho,
      fun resp hresp => ?_⟩
    simp [cancel_order, hl] at hresp
  | some o =>
    by_cases how : o.user_id = req.user_id
    · by_cases hst : o.status = pendingStatus
      · refine ⟨by simp [cancel_order, hl, how, hst], fun o' ho' => ?_,
          fun resp hresp => ?_⟩
        · injection ho' with ho''
          subst ho''
          constructor
          · simp [cancel_order, hl, how, hst]
          · simp [cancel_order, hl, how, hst]
        · have hc : cancel_order st req
              = ({ st with orders := insertOrder st.orders req.order_id ({ o with status := cancelledStatus }) }, .ok { success := true, message := "Order cancelled successfully" }) := by
            simp [cancel_order, hl, how, hst]
          rw [hc]
          simp [cancel_order, lookupOrder_insertOrder_self, how,
            pendingStatus, cancelledStatus]
      · refine ⟨by simp [cancel_order, hl, how, hst], fun o' ho' => ?_,
          fun resp hresp => ?_⟩
        · injection ho' with ho''
          subst ho''
          constructor
          · simp [cancel_order, hl, how, hst]
          · simp [cancel_order, hl, how, hst]
        · simp [cancel_order, hl, how, hst] at hresp
    · refine ⟨by simp [cancel_order, hl, how], fun o' ho' => ?_,
        fun resp hresp => ?_⟩
      · injection ho' with ho''
        subst ho''
        constructor
        · simp [cancel_order, hl, how]
        · simp [cancel_order, hl, how]
      · simp [cancel_order, hl, how] at hresp

/-- Witness for `cancel_order_error_taxonomy` at the concrete store `c1StA`:
order 1 exists, a repeated self-cancel fails with `FailedPrecondition`. -/
theorem cancel_order_error_taxonomy_witness :
    lookupOrder c1StA.orders c1Req.order_id = some c1OrderA ∧
      (((cancel_order c1StA c1Req).2
          = .error (.permissionDenied "Order belongs to another user"))
        ↔ c1OrderA.user_id ≠ c1Req.user_id) ∧
      (cancel_order c1StA c1Req).2
        = .ok { success := true, message := "Order cancelled successfully" } ∧
      (cancel_order (cancel_order c1StA c1Req).1 c1Req).2
        = .error (.failedPrecondition "Only pending orders can be cancelled") :=
  ⟨by decide,
    ((cancel_order_error_taxonomy c1StA c1Req).2.1 c1OrderA (by decide)).1,
    by rfl,
    (cancel_order_error_taxonomy c1StA c1Req).2.2
      { success := true, message := "Order cancelled successfully" } (by rfl)⟩

/-- C4: `create_order` with `price ≤ 0`, `quantity ≤ 0` or an empty symbol
fails with `InvalidArgument` and leaves the whole state (order table and
id counter) unchanged; a request passing all three checks succeeds,
allocates `next_order_id`, inserts exactly the built order, and returns it. -/
theorem create_order_validation (st : ExchangeState)
    (req : CreateOrderRequest) (now : Int) :
    (validRequest req = false →
      (create_order st req now).1 = st ∧
        ∃ msg, (create_order st req now).2 = .error (.invalidArgument msg)) ∧
      (validRequest req = true →
        create_order st req now =
          ({ orders := insertOrder st.orders st.next_order_id
                { id := st.next_order_id, user_id := req.user_id,
                  symbol := req.symbol, ty := req.ty, price := req.price,
                  quantity := req.quantity, filled_quantity := 0,
                  status := pendingStatus, created_at := now },
              next_order_id := st.next_order_id + 1 },
            .ok { id := st.next_order_id, user_id := req.user_id,
                  symbol := req.symbol, ty := req.ty, price := req.price,
                  quantity := req.quantity, filled_quantity := 0,
                  status := pendingStatus, created_at := now })) :=
  ⟨fun hv => create_order_invalid st req now hv,
    fun hv => create_order_valid st req now hv⟩

/-- A request rejected by validation (`price = 0`). -/
def c4BadReq : CreateOrderRequest :=
  { user_id := "u1", symbol := "BTC", ty := 0, price := 0, quantity := 100 }

/-- A request passing validation. -/
def c4GoodReq : CreateOrderRequest :=
  { user_id := "u1", symbol := "BTC", ty := 0, price := 50000, quantity := 100 }

/-- The order `c4GoodReq` creates in a fresh store at time 0. -/
def c4Created : Order :=
  { id := 1, user_id := "u1", symbol := "BTC", ty := 0, price := 50000,
    quantity := 100, filled_quantity := 0, status := pendingStatus,
    created_at := 0 }

/-- Witness for `create_order_validation`: a zero-price request is rejected
leaving the fresh store unchanged; a valid request creates order 1. -/
theorem create_order_validation_witness :
    (validRequest c4BadReq = false ∧
      ((create_order ExchangeState.new c4BadReq 0).1 = ExchangeState.new ∧
        ∃ msg, (create_order ExchangeState.new c4BadReq 0).2
          = .error (.invalidArgument msg))) ∧
      (validRequest c4GoodReq = true ∧
        (create_order ExchangeState.new c4GoodReq 0).2 = .ok c4Created) :=
  ⟨⟨by decide,
      (create_order_validation ExchangeState.new c4BadReq 0).1 (by decide)⟩,
    ⟨by decide, by
      rw [(create_order_validation ExchangeState.new c4GoodReq 0).2 (by decide)]
      rfl⟩⟩

/-- C5: a `cancel_order` call by a non-owning user fails with
`PermissionDenied` and returns the state completely unchanged (the order,
all its fields, and the rest of the table). -/
theorem cancel_order_nonowner_frame (st : ExchangeState)
    (req : CancelOrderRequest) (o : Order)
    (hlook : lookupOrder st.orders req.order_id = some o)
    (hne : o.user_id ≠ req.user_id) :
    cancel_order st req
      = (st, .error (.permissionDenied "Order belongs to another user")) := by
  simp [cancel_order, hlook, hne]

/-- Cancellation of order 1 attempted by the non-owner `"u2"`. -/
def c5Req : CancelOrderRequest := { user_id := "u2", order_id := 1 }

/-- Witness for `cancel_order_nonowner_frame`: user `"u2"` cancelling
`"u1"`'s order 1 in the store `c1StA`. -/
theorem cancel_order_nonowner_frame_witness :
    lookupOrder c1StA.orders c5Req.order_id = some c1OrderA ∧
      c1OrderA.user_id ≠ c5Req.user_id ∧
      cancel_order c1StA c5Req
        = (c1StA, .error (.permissionDenied "Order belongs to another user")) :=
  ⟨by decide, by decide,
    cancel_order_nonowner_frame c1StA c5Req c1OrderA (by decide) (by decide)⟩

/-- C6: `get_active_orders` returns exactly the table's orders owned by the
requested user with status Pending and, when the symbol filter is
non-empty, with the matching symbol; cancelled orders and other users'
orders never appear. -/
theorem get_active_orders_membership (st : ExchangeState)
    (req : GetActiveOrdersRequest) (o : Order) :
    o ∈ get_active_orders st req ↔
      o ∈ st.orders.map Prod.snd ∧ o.user_id = req.user_id ∧
        o.status = pendingStatus ∧
        (req.symbol.isEmpty = true ∨ o.symbol = req.symbol) := by
  simp [get_active_orders, List.mem_filter, and_assoc]

/-! ### Claim C2: id allocation over a sequence of creates -/

theorem assignedIds_nil : assignedIds [] = [] := rfl

theorem assignedIds_cons_ok (o : Order) (rs : List (Except GStatus Order)) :
    assignedIds (.ok o :: rs) = o.id :: assignedIds rs := by
  simp [assignedIds]

theorem runCreates_cons (st : ExchangeState) (req : CreateOrderRequest)
    (now : Int) (tl : List (CreateOrderRequest × Int)) :
    runCreates st ((req, now) :: tl)
      = ((runCreates (create_order st req now).1 tl).1,
         (create_order st req now).2 :: (runCreates (create_order st req now).1 tl).2) := by
  simp [runCreates]

/-- A run of valid `create_order` calls from any state assigns the
consecutive ids `next_order_id, next_order_id + 1, …` and leaves the
counter advanced by the number of calls. -/
theorem runCreates_ids (reqs : List (CreateOrderRequest × Int)) :
    ∀ st : ExchangeState, (∀ r ∈ reqs, validRequest r.1 = true) →
      assignedIds (runCreates st reqs).2
          = (List.range reqs.length).map
              (fun i : Nat => st.next_order_id + (i : Int)) ∧
        (runCreates st reqs).1.next_order_id
          = st.next_order_id + (reqs.length : Int) := by
  induction reqs with
  | nil => intro st _; simp [runCreates, assignedIds]
  | cons hd tl ih =>
    intro st hv
    obtain ⟨req, now⟩ := hd
    have hhd : validRequest req = true := hv (req, now) (by simp)
    have htl : ∀ r ∈ tl, validRequest r.1 = true :=
      fun r hr => hv r (List.mem_cons_of_mem _ hr)
    have hcr := create_order_valid st req now hhd
    have hrec := ih (create_order st req now).1 htl
    have hnext : (create_order st req now).1.next_order_id
        = st.next_order_id + 1 := by rw [hcr]
    rw [hnext] at hrec
    constructor
    · rw [runCreates_cons]
      have h2 : (create_order st req now).2
          = .ok { id := st.next_order_id, user_id := req.user_id, symbol := req.symbol, ty := req.ty, price := req.price, quantity := req.quantity, filled_quantity := 0, status := pendingStatus, created_at := now } := by
        rw [hcr]
      rw [h2, assignedIds_cons_ok, hrec.1]
      simp only [List.length_cons, List.range_succ_eq_map, List.map_cons,
        List.map_map, Nat.cast_zero, add_zero]
      congr 1
      refine List.map_congr_left fun i _ => ?_
      simp only [Function.comp_apply]
      push_cast
      ring
    · rw [runCreates_cons]
      rw [show ((runCreates (create_order st req now).1 tl).1.next_order_id = _) from hrec.2]
      simp only [List.length_cons]
      push_cast
      ring

/-- C2: starting from the fresh state, every sequence of `N` valid
`create_order` calls assigns exactly the ids `1, 2, …, N` in call order:
the id list is strictly increasing starting at 1 and its members are
exactly the integers of `{1..N}` (no duplicates, no gaps). -/
theorem create_order_ids_exactly_one_to_n
    (reqs : List (CreateOrderRequest × Int))
    (hv : ∀ r ∈ reqs, validRequest r.1 = true) :
    assignedIds (runCreates ExchangeState.new reqs).2
        = (List.range reqs.length).map (fun i : Nat => (i : Int) + 1) ∧
      List.Chain' (· < ·) (assignedIds (runCreates ExchangeState.new reqs).2) ∧
      ∀ i : Int, i ∈ assignedIds (runCreates ExchangeState.new reqs).2 ↔
        1 ≤ i ∧ i ≤ (reqs.length : Int) := by
  have h := runCreates_ids reqs ExchangeState.new hv
  have hids : assignedIds (runCreates ExchangeState.new reqs).2
      = (List.range reqs.length).map (fun i : Nat => (i : Int) + 1) := by
    rw [h.1]
    refine List.map_congr_left fun i _ => ?_
    simp only [ExchangeState.new]
    ring
  refine ⟨hids, ?_, ?_⟩
  · rw [hids]
    refine List.Pairwise.chain' ?_
    refine List.Pairwise.map _ (fun a b hab => ?_)
      (List.pairwise_lt_range reqs.length)
    omega
  · intro i
    rw [hids]
    simp only [List.mem_map, List.mem_range]
    constructor
    · rintro ⟨j, hj, rfl⟩
      omega
    · intro hi
      exact ⟨(i - 1).toNat, by omega, by omega⟩

/-- Two valid requests used by the C2 witness. -/
def c2Reqs : List (CreateOrderRequest × Int) :=
  [({ user_id := "u1", symbol := "BTC", ty := 0, price := 50000,
      quantity := 100 }, 5),
   ({ user_id := "u2", symbol := "ETH", ty := 1, price := 3000,
      quantity := 7 }, 6)]

/-- Witness for `create_order_ids_exactly_one_to_n` on two concrete valid
requests: the assigned ids are `[1, 2]`. -/
theorem create_order_ids_exactly_one_to_n_witness :
    (∀ r ∈ c2Reqs, validRequest r.1 = true) ∧
      (assignedIds (runCreates ExchangeState.new c2Reqs).2
          = (List.range c2Reqs.length).map (fun i : Nat => (i : Int) + 1) ∧
        List.Chain' (· < ·) (assignedIds (runCreates ExchangeState.new c2Reqs).2) ∧
        ∀ i : Int, i ∈ assignedIds (runCreates ExchangeState.new c2Reqs).2 ↔
          1 ≤ i ∧ i ≤ (c2Reqs.length : Int)) :=
  ⟨by decide, create_order_ids_exactly_one_to_n c2Reqs (by decide)⟩

/-! ### Claims C7, C9, C10 -/

/-- Every entry of the base-price table is positive. -/
theorem basePriceOf_pos (symbol : String) : 0 < basePriceOf symbol := by
  unfold basePriceOf
  split_ifs <;> norm_num

/-- C7: under the library contract for the two RNG draws
(`gen::<f64>() ∈ [0,1)`, `gen_range(0..1000000) ∈ [0,1000000)`), every
generated quote satisfies `ask = bid * 1.001`, `last = (bid + ask) / 2`,
`bid = basePriceOf symbol * (1 + v)` for the perturbation `v` with
`|v| ≤ 1/100`, and `volume ∈ [0, 1000000)`; consequently `bid ≤ ask` and
`last` lies between `bid` and `ask`.  The base price is 50000 for `"BTC"`,
3000 for `"ETH"`, 1 for `"USD"`, and the fallback 100 otherwise. -/
theorem stream_quotes_invariants (rng : Nat → ℚ × Int) (symbol : String)
    (timestamp : Int)
    (hg0 : 0 ≤ (rng (seedOf timestamp symbol)).1)
    (hg1 : (rng (seedOf timestamp symbol)).1 < 1)
    (hv0 : 0 ≤ (rng (seedOf timestamp symbol)).2)
    (hv1 : (rng (seedOf timestamp symbol)).2 < 1000000) :
    (generateQuote rng symbol timestamp).ask
        = (generateQuote rng symbol timestamp).bid * (1001/1000) ∧
      (generateQuote rng symbol timestamp).last
        = ((generateQuote rng symbol timestamp).bid
            + (generateQuote rng symbol timestamp).ask) / 2 ∧
      (generateQuote rng symbol timestamp).bid
        = basePriceOf symbol * (1 + variationOf rng symbol timestamp) ∧
      |variationOf rng symbol timestamp| ≤ 1/100 ∧
      0 ≤ (generateQuote rng symbol timestamp).volume ∧
      (generateQuote rng symbol timestamp).volume < 1000000 ∧
      (generateQuote rng symbol timestamp).bid
        ≤ (generateQuote rng symbol timestamp).ask ∧
      (generateQuote rng symbol timestamp).bid
        ≤ (generateQuote rng symbol timestamp).last ∧
      (generateQuote rng symbol timestamp).last
        ≤ (generateQuote rng symbol timestamp).ask ∧
      basePriceOf "BTC" = 50000 ∧ basePriceOf "ETH" = 3000 ∧
      basePriceOf "USD" = 1 ∧
      (symbol ≠ "BTC" → symbol ≠ "ETH" → symbol ≠ "USD" →
        basePriceOf symbol = 100) := by
  have hbase := basePriceOf_pos symbol
  have hvar : variationOf rng symbol timestamp
      = ((rng (seedOf timestamp symbol)).1 - 1/2) * (2/100) := rfl
  have hvlo : -(1/100) ≤ variationOf rng symbol timestamp := by
    rw [hvar]; linarith
  have hvhi : variationOf rng symbol timestamp ≤ 1/100 := by
    rw [hvar]; linarith
  have hbid : (generateQuote rng symbol timestamp).bid
      = basePriceOf symbol * (1 + variationOf rng symbol timestamp) := rfl
  have hbid_nonneg : 0 ≤ (generateQuote rng symbol timestamp).bid := by
    rw [hbid]
    have : (0:ℚ) ≤ 1 + variationOf rng symbol timestamp := by linarith
    positivity
  have hask : (generateQuote rng symbol timestamp).ask
      = (generateQuote rng symbol timestamp).bid * (1001/1000) := rfl
  have hlast : (generateQuote rng symbol timestamp).last
      = ((generateQuote rng symbol timestamp).bid
          + (generateQuote rng symbol timestamp).ask) / 2 := rfl
  have hba : (generateQuote rng symbol timestamp).bid
      ≤ (generateQuote rng symbol timestamp).ask := by
    rw [hask]; nlinarith
  refine ⟨hask, hlast, hbid, abs_le.mpr ⟨hvlo, hvhi⟩, hv0, hv1, hba,
    by rw [hlast]; linarith, by rw [hlast]; linarith,
    by decide, by decide,
    by decide, fun h1 h2 h3 => by simp [basePriceOf, h1, h2, h3]⟩

/-- The RNG instantiation used by the C7 witness. -/
def c7Rng : Nat → ℚ × Int := fun _ => (1/2, 41)

/-- Witness for `stream_quotes_invariants` at symbol `"BTC"`, timestamp 0,
with RNG draws `1/2` and `41`. -/
theorem stream_quotes_invariants_witness :
    (0 ≤ (c7Rng (seedOf 0 "BTC")).1 ∧ (c7Rng (seedOf 0 "BTC")).1 < 1 ∧
      0 ≤ (c7Rng (seedOf 0 "BTC")).2 ∧ (c7Rng (seedOf 0 "BTC")).2 < 1000000) ∧
      ((generateQuote c7Rng "BTC" 0).ask
          = (generateQuote c7Rng "BTC" 0).bid * (1001/1000) ∧
        (generateQuote c7Rng "BTC" 0).last
          = ((generateQuote c7Rng "BTC" 0).bid
              + (generateQuote c7Rng "BTC" 0).ask) / 2 ∧
        (generateQuote c7Rng "BTC" 0).bid
          = basePriceOf "BTC" * (1 + variationOf c7Rng "BTC" 0) ∧
        |variationOf c7Rng "BTC" 0| ≤ 1/100 ∧
        0 ≤ (generateQuote c7Rng "BTC" 0).volume ∧
        (generateQuote c7Rng "BTC" 0).volume < 1000000 ∧
        (generateQuote c7Rng "BTC" 0).bid ≤ (generateQuote c7Rng "BTC" 0).ask ∧
        (generateQuote c7Rng "BTC" 0).bid ≤ (generateQuote c7Rng "BTC" 0).last ∧
        (generateQuote c7Rng "BTC" 0).last ≤ (generateQuote c7Rng "BTC" 0).ask ∧
        basePriceOf "BTC" = 50000 ∧ basePriceOf "ETH" = 3000 ∧
        basePriceOf "USD" = 1 ∧
        ("BTC" ≠ "BTC" → "BTC" ≠ "ETH" → "BTC" ≠ "USD" →
          basePriceOf "BTC" = 100)) :=
  ⟨⟨by norm_num [c7Rng], by norm_num [c7Rng], by norm_num [c7Rng],
      by norm_num [c7Rng]⟩,
    stream_quotes_invariants c7Rng "BTC" 0 (by norm_num [c7Rng])
      (by norm_num [c7Rng]) (by norm_num [c7Rng]) (by norm_num [c7Rng])⟩

/-- C9: `create_order` performs no validation on the order-side field
`r#type`: any integer (including values outside `{Buy = 0, Sell = 1}`) is
accepted, stored in the table verbatim, and returned verbatim in the
created order. -/
theorem create_order_type_unvalidated (st : ExchangeState)
    (user symbol : String) (ty : Int) (price : ℚ) (qty now : Int)
    (hp : 0 < price) (hq : 0 < qty) (hs : symbol.isEmpty = false) :
    (create_order st { user_id := user, symbol := symbol, ty := ty, price := price, quantity := qty } now).2
        = .ok { id := st.next_order_id, user_id := user, symbol := symbol, ty := ty, price := price, quantity := qty, filled_quantity := 0, status := pendingStatus, created_at := now } ∧
      lookupOrder (create_order st { user_id := user, symbol := symbol, ty := ty, price := price, quantity := qty } now).1.orders st.next_order_id
        = some { id := st.next_order_id, user_id := user, symbol := symbol, ty := ty, price := price, quantity := qty, filled_quantity := 0, status := pendingStatus, created_at := now } := by
  have hv : validRequest { user_id := user, symbol := symbol, ty := ty, price := price, quantity := qty } = true := by
    simp [validRequest, hp, hq, hs]
  have hcr := create_order_valid st { user_id := user, symbol := symbol, ty := ty, price := price, quantity := qty } now hv
  rw [hcr]
  exact ⟨rfl, lookupOrder_insertOrder_self _ _ _⟩

/-- Witness for `create_order_type_unvalidated`: the out-of-range side
value 7 is accepted and the created order carries it. -/
theorem create_order_type_unvalidated_witness :
    ((0:ℚ) < 50000 ∧ (0:Int) < 100 ∧ ("BTC" : String).isEmpty = false) ∧
      ((create_order ExchangeState.new { user_id := "u1", symbol := "BTC", ty := 7, price := 50000, quantity := 100 } 0).2
          = .ok { id := 1, user_id := "u1", symbol := "BTC", ty := 7, price := 50000, quantity := 100, filled_quantity := 0, status := pendingStatus, created_at := 0 } ∧
        lookupOrder (create_order ExchangeState.new { user_id := "u1", symbol := "BTC", ty := 7, price := 50000, quantity := 100 } 0).1.orders 1
          = some { id := 1, user_id := "u1", symbol := "BTC", ty := 7, price := 50000, quantity := 100, filled_quantity := 0, status := pendingStatus, created_at := 0 }) :=
  ⟨⟨by norm_num, by norm_num, by decide⟩,
    create_order_type_unvalidated ExchangeState.new "u1" "BTC" 7 50000 100 0
      (by norm_num) (by norm_num) (by decide)⟩

/-- C10: the RNG seed `(timestamp as u64) ^ (symbol.len() as u64)` depends
on the symbol only through its byte length, so two quote generations at the
same timestamp for symbols of equal length use the same seed and hence get
the same perturbation factor and the same volume. -/
theorem seed_depends_only_on_symbol_length (rng : Nat → ℚ × Int)
    (timestamp : Int) (s1 s2 : String)
    (hlen : s1.utf8ByteSize = s2.utf8ByteSize) :
    seedOf timestamp s1 = seedOf timestamp s2 ∧
      variationOf rng s1 timestamp = variationOf rng s2 timestamp ∧
      (generateQuote rng s1 timestamp).volume
        = (generateQuote rng s2 timestamp).volume := by
  have hs : seedOf timestamp s1 = seedOf timestamp s2 := by
    simp [seedOf, hlen]
  exact ⟨hs, by simp [variationOf, hs], by simp [generateQuote, hs]⟩

/-- Witness for `seed_depends_only_on_symbol_length`: `"BTC"` and `"ETH"`
have equal byte length 3, so at the same timestamp their perturbation and
volume agree for every RNG, here instantiated with `c7Rng`-independent
values. -/
theorem seed_depends_only_on_symbol_length_witness :
    ("BTC" : String).utf8ByteSize = ("ETH" : String).utf8ByteSize ∧
      (seedOf 1700000000 "BTC" = seedOf 1700000000 "ETH" ∧
        variationOf (fun s => ((s : ℚ) / 2, (s : Int))) "BTC" 1700000000
          = variationOf (fun s => ((s : ℚ) / 2, (s : Int))) "ETH" 1700000000 ∧
        (generateQuote (fun s => ((s : ℚ) / 2, (s : Int))) "BTC" 1700000000).volume
          = (generateQuote (fun s => ((s : ℚ) / 2, (s : Int))) "ETH" 1700000000).volume) :=
  ⟨by decide,
    seed_depends_only_on_symbol_length (fun s => ((s : ℚ) / 2, (s : Int)))
      1700000000 "BTC" "ETH" (by decide)⟩

/-! ### Claim C8: the producer stops at the first failed send -/

/-- A tick all of whose sends are accepted attempts one send per symbol
and does not return. -/
theorem tickSends_all_alive (alive : Nat → Bool) (syms : List String) :
    ∀ k : Nat, (∀ j, k ≤ j → j < k + syms.length → alive j = true) →
      tickSends alive syms k = (syms.length, false) := by
  induction syms with
  | nil => intro k _; rfl
  | cons s rest ih =>
    intro k h
    have hk : alive k = true := h k le_rfl (by simp)
    have hrest := ih (k + 1) fun j h1 h2 => h j (by omega) (by simp; omega)
    simp [tickSends, hk, hrest]

/-- A tick whose first dead attempt index is `d` stops right at `d`:
it makes exactly the attempts `k, …, d` and returns. -/
theorem tickSends_first_dead (alive : Nat → Bool) (syms : List String) :
    ∀ k d : Nat, k ≤ d → d < k + syms.length →
      (∀ j, k ≤ j → j < d → alive j = true) → alive d = false →
      tickSends alive syms k = (d - k + 1, true) := by
  induction syms with
  | nil => intro k d h1 h2 _ _; simp at h2; omega
  | cons s rest ih =>
    intro k d h1 h2 hlive hdead
    by_cases hkd : k = d
    · subst hkd
      simp [tickSends, hdead]
    · have hk : alive k = true := hlive k le_rfl (by omega)
      have hrest := ih (k + 1) d (by omega) (by simp at h2 ⊢; omega)
        (fun j ha hb => hlive j (by omega) hb) hdead
      simp only [tickSends, hk, if_true, hrest]
      have : d - (k + 1) + 1 + 1 = d - k + 1 := by omega
      rw [this]

/-- Once the consumer is gone from attempt index `d` on, a producer that
would otherwise attempt more than `d` sends makes exactly the attempts
`k, …, d` — the single failing send is its last — and returns. -/
theorem producerRun_stops (alive : Nat → Bool) (syms : List String) (d : Nat)
    (hlive : ∀ j, j < d → alive j = true)
    (hdead : ∀ j, d ≤ j → alive j = false) :
    ∀ fuel k : Nat, k ≤ d → d < k + fuel * syms.length →
      producerRun alive syms fuel k = (d - k + 1, true) := by
  intro fuel
  induction fuel with
  | zero => intro k h1 h2; omega
  | succ fuel ih =>
    intro k h1 h2
    by_cases hcase : d < k + syms.length
    · have ht := tickSends_first_dead alive syms k d h1 hcase
        (fun j _ hj => hlive j hj) (hdead d le_rfl)
      simp [producerRun, ht]
    · have ht := tickSends_all_alive alive syms k
        (fun j h1 h2 => hlive j (by omega))
      have hrec := ih (k + syms.length) (by omega)
        (by rw [Nat.succ_mul] at h2; omega)
      simp only [producerRun, ht, if_false, Bool.false_eq_true]
      simp only [hrec]
      have : syms.length + (d - (k + syms.length) + 1) = d - k + 1 := by omega
      rw [this]

/-- C8: the quote producer never sends again after the first failed send
and terminates at once: if the consumer side is gone from (global) send
attempt `d` on and the producer, over `fuel` ticks of its symbol list,
would otherwise make more than `d` attempts, then its run makes exactly
`d + 1` attempts — the sends before the disconnect plus the single
failing one, within the tick in progress — and returns. -/
theorem stream_quotes_producer_stops_on_disconnect (alive : Nat → Bool)
    (symbols : List String) (fuel d : Nat)
    (hlive : ∀ j, j < d → alive j = true)
    (hdead : ∀ j, d ≤ j → alive j = false)
    (hreach : d < fuel * symbols.length) :
    producerRun alive symbols fuel 0 = (d + 1, true) := by
  have h := producerRun_stops alive symbols d hlive hdead fuel 0 (by omega)
    (by omega)
  simpa using h

/-- The consumer model for the C8 witness: the first three sends are
accepted, every later one fails. -/
def c8Alive : Nat → Bool := fun k => decide (k < 3)

/-- Witness for `stream_quotes_producer_stops_on_disconnect`: streaming
`["BTC", "ETH"]` with the consumer gone from attempt 3 on, the producer
makes exactly 4 attempts (two full ticks, then the failing third-tick
send) and returns, with fuel for 5 ticks available. -/
theorem stream_quotes_producer_stops_on_disconnect_witness :
    (∀ j, j < 3 → c8Alive j = true) ∧ (∀ j, 3 ≤ j → c8Alive j = false) ∧
      3 < 5 * (["BTC", "ETH"] : List String).length ∧
      producerRun c8Alive ["BTC", "ETH"] 5 0 = (4, true) :=
  ⟨fun j hj => by simpa [c8Alive] using hj,
    fun j hj => by simp [c8Alive]; omega,
    by decide,
    stream_quotes_producer_stops_on_disconnect c8Alive ["BTC", "ETH"] 5 3
      (fun j hj => by simpa [c8Alive] using hj)
      (fun j hj => by simp [c8Alive]; omega) (by decide)⟩

end ExchangeSrv
